import Mathlib

/-!
# The Deepgram relay of `server.js`

A shallow embedding of the per-connection relay session that `server.js`
sets up inside `wss.on("connection", ...)`: the readiness flag
`isDeepgramConnected`, the two sockets `clientWs` (browser, inbound leg) and
`deepgramWs` (transcription provider, outbound leg), and the seven event
handlers registered on them.

A handler is a function from the session state and the event's arguments to
the new state and the list of calls it makes, in program order.  A socket is
represented by its `readyState`.  The built-in `JSON.parse`, and the part of
JavaScript property access the message handler relies on, are embedded
first.  A `close` call with arguments is carried out as `ws` does it: it
checks the code and the length of the reason, and throws when it refuses
them.
-/

namespace Relay

/-! ## JavaScript values produced by `JSON.parse` -/

/-- A JavaScript string: its sequence of UTF-16 code units. -/
abbrev JSString := List Nat

/-- The values `JSON.parse` can return, and `undefined`, which property
access yields for a missing property.  A number is kept exactly, as
`(-1)^negative * mantissa * 10^exp10`, the way its literal spells it. -/
inductive JSValue where
  | undefined : JSValue
  | null : JSValue
  | bool (b : Bool) : JSValue
  | number (negative : Bool) (mantissa : Nat) (exp10 : Int) : JSValue
  | string (s : JSString) : JSValue
  | array (items : List JSValue) : JSValue
  | object (members : List (JSString × JSValue)) : JSValue

/-- The UTF-16 code units of one Unicode scalar value. -/
def utf16Units (c : Char) : List Nat :=
  if c.toNat < 0x10000 then [c.toNat]
  else [0xD800 + (c.toNat - 0x10000) / 0x400, 0xDC00 + (c.toNat - 0x10000) % 0x400]

/-- The JavaScript string a source-text literal denotes. -/
def jsString (s : String) : JSString :=
  s.toList.flatMap utf16Units

namespace JSON

/-- JSON insignificant whitespace: space, tab, line feed, carriage return. -/
def isWhitespace (c : Char) : Bool :=
  c = ' ' || c = '\t' || c = '\n' || c = '\r'

/-- Drop leading whitespace. -/
def skipWhitespace : List Char → List Char
  | [] => []
  | c :: cs => if isWhitespace c then skipWhitespace cs else c :: cs

/-- Consume the given characters, or fail. -/
def expect : List Char → List Char → Option (List Char)
  | [], cs => some cs
  | _ :: _, [] => none
  | p :: ps, c :: cs => if p = c then expect ps cs else none

/-- Value of a hexadecimal digit. -/
def hexDigit (c : Char) : Option Nat :=
  if '0' ≤ c ∧ c ≤ '9' then some (c.toNat - 48)
  else if 'a' ≤ c ∧ c ≤ 'f' then some (c.toNat - 87)
  else if 'A' ≤ c ∧ c ≤ 'F' then some (c.toNat - 55)
  else none

/-- Code unit denoted by a single-character escape `\c`. -/
def simpleEscape (c : Char) : Option Nat :=
  if c = '"' then some 0x22
  else if c = '\\' then some 0x5C
  else if c = '/' then some 0x2F
  else if c = 'b' then some 0x08
  else if c = 'f' then some 0x0C
  else if c = 'n' then some 0x0A
  else if c = 'r' then some 0x0D
  else if c = 't' then some 0x09
  else none

/-- Prepend code units to the string part of a partial result. -/
def consUnits (us : List Nat) : Option (JSString × List Char) → Option (JSString × List Char)
  | none => none
  | some (s, rest) => some (us ++ s, rest)

/-- A JSON string after its opening quote: the string and the input left
after the closing quote.  Control characters below U+0020 are rejected. -/
def parseStringBody : List Char → Option (JSString × List Char)
  | [] => none
  | c :: rest =>
    if c = '"' then some ([], rest)
    else if c = '\\' then
      match rest with
      | [] => none
      | e :: rest1 =>
        if e = 'u' then
          match rest1 with
          | h1 :: h2 :: h3 :: h4 :: rest2 =>
            match hexDigit h1, hexDigit h2, hexDigit h3, hexDigit h4 with
            | some a, some b, some c3, some d =>
              consUnits [((a * 16 + b) * 16 + c3) * 16 + d] (parseStringBody rest2)
            | _, _, _, _ => none
          | _ => none
        else
          match simpleEscape e with
          | some u => consUnits [u] (parseStringBody rest1)
          | none => none
    else if c.toNat < 0x20 then none
    else consUnits (utf16Units c) (parseStringBody rest)

/-- Split off the leading decimal digits. -/
def takeDigits : List Char → List Char × List Char
  | [] => ([], [])
  | c :: cs =>
    if c.isDigit then ((takeDigits cs).1.cons c, (takeDigits cs).2) else ([], c :: cs)

/-- Value of a run of decimal digits. -/
def digitsValue (ds : List Char) : Nat :=
  ds.foldl (fun n c => 10 * n + (c.toNat - 48)) 0

/-- The fraction part of a number, if any: its digits and the input left. -/
def parseFraction (cs : List Char) : Option (List Char × List Char) :=
  match cs with
  | '.' :: r =>
    match takeDigits r with
    | ([], _) => none
    | (ds, r1) => some (ds, r1)
  | _ => some ([], cs)

/-- The exponent part of a number, if any: its value and the input left. -/
def parseExponent (cs : List Char) : Option (Int × List Char) :=
  match cs with
  | [] => some (0, cs)
  | c :: r =>
    if c = 'e' ∨ c = 'E' then
      match r with
      | '+' :: r1 =>
        match takeDigits r1 with
        | ([], _) => none
        | (ds, r2) => some (Int.ofNat (digitsValue ds), r2)
      | '-' :: r1 =>
        match takeDigits r1 with
        | ([], _) => none
        | (ds, r2) => some (- Int.ofNat (digitsValue ds), r2)
      | _ =>
        match takeDigits r with
        | ([], _) => none
        | (ds, r2) => some (Int.ofNat (digitsValue ds), r2)
    else some (0, cs)

/-- The optional minus sign of a number: whether it is there, and the
input left. -/
def parseSign : List Char → Bool × List Char
  | '-' :: r => (true, r)
  | cs => (false, cs)

/-- A JSON number: `-? (0 | [1-9][0-9]*) (. [0-9]+)? ([eE] [+-]? [0-9]+)?`. -/
def parseNumber (cs : List Char) : Option (JSValue × List Char) :=
  match takeDigits (parseSign cs).2 with
  | ([], _) => none
  | (d :: ds, r) =>
    if d = '0' ∧ ds ≠ [] then none
    else
      match parseFraction r with
      | none => none
      | some (fs, r1) =>
        match parseExponent r1 with
        | none => none
        | some (e, r2) =>
          some (.number (parseSign cs).1 (digitsValue (d :: ds ++ fs))
            (e - Int.ofNat fs.length), r2)

mutual

/-- One JSON value at the head of the input (no leading whitespace); the
first argument bounds the depth of the recursion. -/
def parseValue : Nat → List Char → Option (JSValue × List Char)
  | 0, _ => none
  | fuel + 1, cs =>
    match cs with
    | [] => none
    | c :: rest =>
      if c = '{' then
        match skipWhitespace rest with
        | '}' :: r => some (.object [], r)
        | cs1 =>
          match parseMembers fuel cs1 with
          | none => none
          | some (kvs, r) => some (.object kvs, r)
      else if c = '[' then
        match skipWhitespace rest with
        | ']' :: r => some (.array [], r)
        | cs1 =>
          match parseElements fuel cs1 with
          | none => none
          | some (vs, r) => some (.array vs, r)
      else if c = '"' then
        match parseStringBody rest with
        | none => none
        | some (s, r) => some (.string s, r)
      else if c = 't' then
        match expect ['r', 'u', 'e'] rest with
        | none => none
        | some r => some (.bool true, r)
      else if c = 'f' then
        match expect ['a', 'l', 's', 'e'] rest with
        | none => none
        | some r => some (.bool false, r)
      else if c = 'n' then
        match expect ['u', 'l', 'l'] rest with
        | none => none
        | some r => some (.null, r)
      else if c = '-' ∨ c.isDigit then parseNumber cs
      else none

/-- The elements of a non-empty array, up to and including `]`. -/
def parseElements : Nat → List Char → Option (List JSValue × List Char)
  | 0, _ => none
  | fuel + 1, cs =>
    match parseValue fuel cs with
    | none => none
    | some (v, r) =>
      match skipWhitespace r with
      | ',' :: r1 =>
        match parseElements fuel (skipWhitespace r1) with
        | none => none
        | some (vs, r2) => some (v :: vs, r2)
      | ']' :: r1 => some ([v], r1)
      | _ => none

/-- The members of a non-empty object, up to and including `}`. -/
def parseMembers : Nat → List Char → Option (List (JSString × JSValue) × List Char)
  | 0, _ => none
  | fuel + 1, cs =>
    match cs with
    | '"' :: r =>
      match parseStringBody r with
      | none => none
      | some (k, r1) =>
        match skipWhitespace r1 with
        | ':' :: r2 =>
          match parseValue fuel (skipWhitespace r2) with
          | none => none
          | some (v, r3) =>
            match skipWhitespace r3 with
            | ',' :: r4 =>
              match parseMembers fuel (skipWhitespace r4) with
              | none => none
              | some (kvs, r5) => some ((k, v) :: kvs, r5)
            | '}' :: r4 => some ([(k, v)], r4)
            | _ => none
        | _ => none
    | _ => none

end

/-- The built-in `JSON.parse(text)`: `some v` when `text` is one JSON value
surrounded by optional whitespace, `none` when it throws `SyntaxError`.
The depth bound passed on is never reached (`parse_eq_none_iff`,
`parse_eq_some_iff`). -/
def parse (text : String) : Option JSValue :=
  match parseValue (2 * text.length + 2) (skipWhitespace text.toList) with
  | none => none
  | some (v, rest) =>
    match skipWhitespace rest with
    | [] => some v
    | _ :: _ => none

/-- Fuel `n` does not limit parser `f`: a result obtained with it leaves no
more input than there was, and is obtained with every amount of fuel above
the number of characters consumed. -/
def FuelEnough {α : Type} (f : Nat → List Char → Option (α × List Char)) (n : Nat) : Prop :=
  ∀ cs a rest, f n cs = some (a, rest) →
    rest.length ≤ cs.length ∧ ∀ m, cs.length - rest.length + 1 ≤ m → f m cs = some (a, rest)

end JSON

/-! ## Property access and truthiness -/

/-- The own property `key` of an object built by `JSON.parse`; of duplicate
members the last one counts. -/
def lookupMember (members : List (JSString × JSValue)) (key : JSString) : JSValue :=
  match members.reverse.find? (fun kv => kv.1 == key) with
  | some kv => kv.2
  | none => JSValue.undefined

/-- The expression `v.name` for one of the names `type`, `channel`,
`alternatives`, `transcript`, none of which is a built-in property of an
array, string, number or boolean: `none` is the `TypeError` raised on `null`
and `undefined`. -/
def JSValue.getField (v : JSValue) (name : String) : Option JSValue :=
  match v with
  | .undefined => none
  | .null => none
  | .object members => some (lookupMember members (jsString name))
  | _ => some .undefined

/-- The expression `v?.name`, for the same names. -/
def JSValue.optField (v : JSValue) (name : String) : JSValue :=
  match v.getField name with
  | none => .undefined
  | some w => w

/-- The expression `v?.[0]`. -/
def JSValue.optIndex0 (v : JSValue) : JSValue :=
  match v with
  | .array (x :: _) => x
  | .string (u :: _) => .string [u]
  | .object members => lookupMember members (jsString "0")
  | _ => .undefined

/-- The comparison `v === "literal"`. -/
def JSValue.isLiteral (v : JSValue) (literal : String) : Bool :=
  match v with
  | .string s => s == jsString literal
  | _ => false

/-- Whether the double nearest to `mantissa * 10^exp10` is zero, that is
whether the value is at most `2^(-1075)`, half the least positive double. -/
def numberIsZero (mantissa : Nat) (exp10 : Int) : Bool :=
  match exp10 with
  | .ofNat _ => mantissa == 0
  | .negSucc k => decide (mantissa * 2 ^ 1075 ≤ 10 ^ (k + 1))

/-- The conversion to boolean an `if` applies to its condition. -/
def JSValue.truthy (v : JSValue) : Bool :=
  match v with
  | .undefined => false
  | .null => false
  | .bool b => b
  | .number _ mantissa exp10 => !numberIsZero mantissa exp10
  | .string s => !s.isEmpty
  | .array _ => true
  | .object _ => true

/-! ## The session -/

/-- The `readyState` of a `ws` socket. -/
inductive ReadyState where
  | CONNECTING
  | OPEN
  | CLOSING
  | CLOSED
  deriving DecidableEq, Repr

/-- The numeric value of a ready-state: `WebSocket.CONNECTING` is 0,
`WebSocket.OPEN` 1, `WebSocket.CLOSING` 2, `WebSocket.CLOSED` 3. -/
def ReadyState.toNat : ReadyState → Nat
  | .CONNECTING => 0
  | .OPEN => 1
  | .CLOSING => 2
  | .CLOSED => 3

/-- A binary frame received from the browser: its bytes. -/
abbrev Frame := List Nat

/-- The `console` calls of the handlers, one constructor per call site (the
text printed is not modelled). -/
inductive Log where
  | connectedToDeepgram
  | deepgramError
  | deepgramClosed
  | protocolError
  | noStatusReceived
  | abnormalClosure
  | metadata
  | transcript
  | processingError
  | notConnectedYet
  | connectionNotOpen
  | browserDisconnected
  | clientError
  deriving DecidableEq, Repr

/-- The exceptions `ws` throws out of a `close` call it refuses. -/
inductive Thrown where
  | typeError
  | rangeError
  deriving DecidableEq, Repr

/-- A call a handler makes on one of the two sockets or on `console`, or
the exception that leaves the handler: nothing in `server.js` catches it,
and the process exits. -/
inductive Call where
  | clientSend (data : String)
  | clientClose (code : Nat) (reason : String)
  | deepgramSend (data : Frame)
  | deepgramClose
  | console (site : Log)
  | uncaught (error : Thrown)
  deriving DecidableEq, Repr

/-- The state the handlers of one connection share: the flag
`isDeepgramConnected` and the ready-state of each socket. -/
structure Session where
  isDeepgramConnected : Bool
  clientWs : ReadyState
  deepgramWs : ReadyState
  deriving DecidableEq, Repr

/-- The session when `wss.on("connection")` returns: the browser socket is
open, the Deepgram socket has just been constructed, the flag is `false`. -/
def Session.initial : Session :=
  { isDeepgramConnected := false, clientWs := .OPEN, deepgramWs := .CONNECTING }

/-- Handler `deepgramWs.on("open")`. -/
def deepgramWsOnOpen (s : Session) : Session × List Call :=
  ({ s with isDeepgramConnected := true }, [.console .connectedToDeepgram])

/-- The function `isValidStatusCode` of `ws` (version 8), which decides
whether a close code may be sent: 1000 to 1014 without 1004, 1005 and 1006,
or 3000 to 4999.  The codes 1005 and 1006 are the ones `ws` reports in a close event
when the peer sent no code or the connection broke. -/
def isValidStatusCode (code : Nat) : Bool :=
  (decide (1000 ≤ code) && decide (code ≤ 1014)
      && code != 1004 && code != 1005 && code != 1006)
    || (decide (3000 ≤ code) && decide (code ≤ 4999))

/-- The session after an uncaught exception: the process has exited and both
sockets are gone with it. -/
def Session.exited (s : Session) : Session :=
  { s with clientWs := .CLOSED, deepgramWs := .CLOSED }

/-- The call `clientWs.close(code, reason)` on an open socket with a reason
that is not empty, as `ws` carries it out: it throws `TypeError` for a code
that is not valid, `RangeError` for a reason of more than 123 bytes of
UTF-8, and otherwise sends the close frame, the socket being `CLOSING` from
then on. -/
def clientWsClose (s : Session) (code : Nat) (reason : String) : Session × List Call :=
  if isValidStatusCode code = false then
    (s.exited, [.clientClose code reason, .uncaught .typeError])
  else if 123 < reason.utf8ByteSize then
    (s.exited, [.clientClose code reason, .uncaught .rangeError])
  else ({ s with clientWs := .CLOSING }, [.clientClose code reason])

/-- Handler `deepgramWs.on("error")`; `err` is the error's message. -/
def deepgramWsOnError (s : Session) (_err : String) : Session × List Call :=
  if s.clientWs = .OPEN then
    ((clientWsClose s 1011 "Deepgram connection error").1,
      [.console .deepgramError] ++ (clientWsClose s 1011 "Deepgram connection error").2)
  else (s, [.console .deepgramError])

/-- The expression `reason?.toString() || "No reason provided"`; `none` is
an absent reason, `some r` a buffer holding the text `r`. -/
def reasonStr (reason : Option String) : String :=
  match reason with
  | none => "No reason provided"
  | some r => if r = "" then "No reason provided" else r

/-- The `console` calls of the close handler: the report of the closure,
then one more for each of the codes 1002, 1005 and 1006. -/
def closeLogs (code : Nat) : List Call :=
  [.console .deepgramClosed]
    ++ (if code = 1002 then [.console .protocolError] else [])
    ++ (if code = 1005 then [.console .noStatusReceived] else [])
    ++ (if code = 1006 then [.console .abnormalClosure] else [])

/-- Handler `deepgramWs.on("close")`. -/
def deepgramWsOnClose (s : Session) (code : Nat) (reason : Option String) :
    Session × List Call :=
  if s.clientWs = .OPEN then
    ((clientWsClose s code (reasonStr reason)).1,
      closeLogs code ++ (clientWsClose s code (reasonStr reason)).2)
  else (s, closeLogs code)

/-- The statements of the `try` block that come before the forward: the
`console` calls they make, or `none` when reading `msg.type` or
`msg.channel` throws.  The transcript is
`msg.channel?.alternatives?.[0]?.transcript`. -/
def inspectMessage (msg : JSValue) : Option (List Call) :=
  match msg.getField "type" with
  | none => none
  | some ty =>
    if ty.isLiteral "Metadata" then some [.console .metadata]
    else if ty.isLiteral "Results" then
      match msg.getField "channel" with
      | none => none
      | some channel =>
        if (((channel.optField "alternatives").optIndex0).optField "transcript").truthy
        then some [.console .transcript]
        else some []
    else some []

/-- Handler `deepgramWs.on("message")`; `data` is the text `data.toString()`
of the payload.  Whatever throws inside the `try` block, `JSON.parse` or a
property read, ends in the `catch` clause, which only reports. -/
def deepgramWsOnMessage (s : Session) (data : String) : Session × List Call :=
  match JSON.parse data with
  | none => (s, [.console .processingError])
  | some msg =>
    match inspectMessage msg with
    | none => (s, [.console .processingError])
    | some logs =>
      if s.clientWs = .OPEN then (s, logs ++ [.clientSend data])
      else (s, logs)

/-- Handler `clientWs.on("message")`.  With the flag not set the frame is
dropped: the diagnostic of that branch says "buffering", but nothing is
stored. -/
def clientWsOnMessage (s : Session) (data : Frame) : Session × List Call :=
  if s.isDeepgramConnected = false then (s, [.console .notConnectedYet])
  else if s.deepgramWs = .OPEN then (s, [.deepgramSend data])
  else (s, [.console .connectionNotOpen])

/-- Handler `clientWs.on("close")`.  The call `deepgramWs.close()` passes no
code, so `ws` has nothing to refuse. -/
def clientWsOnClose (s : Session) : Session × List Call :=
  if s.deepgramWs = .OPEN then
    ({ s with deepgramWs := .CLOSING }, [.console .browserDisconnected, .deepgramClose])
  else (s, [.console .browserDisconnected])

/-- Handler `clientWs.on("error")`; `err` is the error's message. -/
def clientWsOnError (s : Session) (_err : String) : Session × List Call :=
  (s, [.console .clientError])

/-! ## Runs of a session -/

/-- The two sockets of a session. -/
inductive Leg where
  | client
  | deepgram
  deriving DecidableEq, Repr

/-- What can happen to a session: the library moves a socket on in its life
cycle, or one of the seven events fires. -/
inductive Event where
  | transport (leg : Leg) (state : ReadyState)
  | deepgramOpen
  | deepgramError (err : String)
  | deepgramClose (code : Nat) (reason : Option String)
  | deepgramMessage (data : String)
  | clientMessage (data : Frame)
  | clientClose
  | clientError (err : String)
  deriving DecidableEq, Repr

/-- A socket's ready-state only ever increases: a transition to a smaller
state does not happen. -/
def advance (current target : ReadyState) : ReadyState :=
  if current.toNat ≤ target.toNat then target else current

/-- One event: the new session and the calls made. -/
def step (s : Session) (e : Event) : Session × List Call :=
  match e with
  | .transport .client state => ({ s with clientWs := advance s.clientWs state }, [])
  | .transport .deepgram state => ({ s with deepgramWs := advance s.deepgramWs state }, [])
  | .deepgramOpen => deepgramWsOnOpen s
  | .deepgramError err => deepgramWsOnError s err
  | .deepgramClose code reason => deepgramWsOnClose s code reason
  | .deepgramMessage data => deepgramWsOnMessage s data
  | .clientMessage data => clientWsOnMessage s data
  | .clientClose => clientWsOnClose s
  | .clientError err => clientWsOnError s err

/-- A sequence of events: the final session and all calls made, in order.
After an uncaught exception the program handles no event any more; in a run
both sockets are `CLOSED` from then on, and the events still listed make no
call on a socket (`run_exited`). -/
def run (s : Session) : List Event → Session × List Call
  | [] => (s, [])
  | e :: es => ((run (step s e).1 es).1, (step s e).2 ++ (run (step s e).1 es).2)

/-- The payloads passed to `clientWs.send`, in order. -/
def clientSends : List Call → List String
  | [] => []
  | .clientSend data :: cs => data :: clientSends cs
  | _ :: cs => clientSends cs

/-- The arguments of the `clientWs.close` calls, in order. -/
def clientCloses : List Call → List (Nat × String)
  | [] => []
  | .clientClose code reason :: cs => (code, reason) :: clientCloses cs
  | _ :: cs => clientCloses cs

/-- The frames passed to `deepgramWs.send`, in order. -/
def deepgramSends : List Call → List Frame
  | [] => []
  | .deepgramSend data :: cs => data :: deepgramSends cs
  | _ :: cs => deepgramSends cs

/-- The number of `deepgramWs.close` calls. -/
def deepgramCloses : List Call → Nat
  | [] => 0
  | .deepgramClose :: cs => deepgramCloses cs + 1
  | _ :: cs => deepgramCloses cs

/-- The calls made on the two sockets and the uncaught exceptions:
everything but the `console` calls. -/
def socketCalls : List Call → List Call
  | [] => []
  | .console _ :: cs => socketCalls cs
  | c :: cs => c :: socketCalls cs

/-! ## Auxiliary facts -/

/-- The sends to the browser of two call lists in a row. -/
theorem clientSends_append (xs ys : List Call) :
    clientSends (xs ++ ys) = clientSends xs ++ clientSends ys := by
  induction xs with
  | nil => rfl
  | cons c cs ih => cases c <;> simp [clientSends, ih]

/-- The closes of the browser socket of two call lists in a row. -/
theorem clientCloses_append (xs ys : List Call) :
    clientCloses (xs ++ ys) = clientCloses xs ++ clientCloses ys := by
  induction xs with
  | nil => rfl
  | cons c cs ih => cases c <;> simp [clientCloses, ih]

/-- The sends to Deepgram of two call lists in a row. -/
theorem deepgramSends_append (xs ys : List Call) :
    deepgramSends (xs ++ ys) = deepgramSends xs ++ deepgramSends ys := by
  induction xs with
  | nil => rfl
  | cons c cs ih => cases c <;> simp [deepgramSends, ih]

/-- The closes of the Deepgram socket of two call lists in a row. -/
theorem deepgramCloses_append (xs ys : List Call) :
    deepgramCloses (xs ++ ys) = deepgramCloses xs + deepgramCloses ys := by
  induction xs with
  | nil => simp [deepgramCloses]
  | cons c cs ih => cases c <;> simp [deepgramCloses, ih]; omega

/-- The socket calls of two call lists in a row. -/
theorem socketCalls_append (xs ys : List Call) :
    socketCalls (xs ++ ys) = socketCalls xs ++ socketCalls ys := by
  induction xs with
  | nil => rfl
  | cons c cs ih => cases c <;> simp [socketCalls, ih]

/-- The `console` calls of the message handler touch no socket. -/
theorem inspectMessage_quiet (msg : JSValue) (logs : List Call)
    (h : inspectMessage msg = some logs) :
    clientSends logs = [] ∧ clientCloses logs = [] ∧ deepgramSends logs = [] ∧
      deepgramCloses logs = 0 ∧ socketCalls logs = [] := by
  unfold inspectMessage at h
  split at h
  · simp at h
  · split_ifs at h
    · simp only [Option.some.injEq] at h
      subst h
      exact ⟨rfl, rfl, rfl, rfl, rfl⟩
    · split at h
      · simp at h
      · split_ifs at h
        · simp only [Option.some.injEq] at h
          subst h
          exact ⟨rfl, rfl, rfl, rfl, rfl⟩
        · simp only [Option.some.injEq] at h
          subst h
          exact ⟨rfl, rfl, rfl, rfl, rfl⟩
    · simp only [Option.some.injEq] at h
      subst h
      exact ⟨rfl, rfl, rfl, rfl, rfl⟩

/-- The property reads of the message handler throw on `null` and
`undefined` only. -/
theorem inspectMessage_some (msg : JSValue) (hnull : msg ≠ JSValue.null)
    (hundef : msg ≠ JSValue.undefined) : ∃ logs, inspectMessage msg = some logs := by
  have key : ∀ m : JSValue, (∃ t c, m.getField "type" = some t ∧ m.getField "channel" = some c) →
      ∃ logs, inspectMessage m = some logs := by
    rintro m ⟨t, c, ht, hc⟩
    unfold inspectMessage
    rw [ht, hc]
    simp only
    split_ifs <;> exact ⟨_, rfl⟩
  cases msg with
  | undefined => exact absurd rfl hundef
  | null => exact absurd rfl hnull
  | bool b => exact key _ ⟨_, _, rfl, rfl⟩
  | number n m e => exact key _ ⟨_, _, rfl, rfl⟩
  | string s => exact key _ ⟨_, _, rfl, rfl⟩
  | array xs => exact key _ ⟨_, _, rfl, rfl⟩
  | object ms => exact key _ ⟨_, _, rfl, rfl⟩

/-- The `console` calls of the close handler touch no socket. -/
theorem closeLogs_quiet (code : Nat) :
    clientSends (closeLogs code) = [] ∧ clientCloses (closeLogs code) = [] ∧
      deepgramSends (closeLogs code) = [] ∧ deepgramCloses (closeLogs code) = 0 ∧
      socketCalls (closeLogs code) = [] := by
  unfold closeLogs
  split_ifs <;> simp [clientSends, clientCloses, deepgramSends, deepgramCloses, socketCalls]

/-- The close the error handler asks for is one `ws` accepts. -/
theorem clientWsClose_error (s : Session) :
    clientWsClose s 1011 "Deepgram connection error"
      = ({ s with clientWs := ReadyState.CLOSING },
          [Call.clientClose 1011 "Deepgram connection error"]) := by
  have h1 : isValidStatusCode 1011 = true := by decide
  have h2 : ¬ 123 < "Deepgram connection error".utf8ByteSize := by decide
  simp [clientWsClose, h1, h2]

/-- A close with a valid code and a reason of at most 123 bytes is sent. -/
theorem clientWsClose_valid (s : Session) (code : Nat) (reason : String)
    (hcode : isValidStatusCode code = true) (hlen : reason.utf8ByteSize ≤ 123) :
    clientWsClose s code reason
      = ({ s with clientWs := ReadyState.CLOSING }, [Call.clientClose code reason]) := by
  have h2 : ¬ 123 < reason.utf8ByteSize := by omega
  simp [clientWsClose, hcode, h2]

/-- What every `clientWs.close` call has in common, sent or refused: it is
one close call on the browser socket and no other socket call, the browser
socket is closing or closed afterwards, the flag is as it was, and a
Deepgram socket that was closing or closed still is. -/
theorem clientWsClose_facts (s : Session) (code : Nat) (reason : String) :
    clientCloses (clientWsClose s code reason).2 = [(code, reason)] ∧
      clientSends (clientWsClose s code reason).2 = [] ∧
      deepgramSends (clientWsClose s code reason).2 = [] ∧
      deepgramCloses (clientWsClose s code reason).2 = 0 ∧
      2 ≤ (clientWsClose s code reason).1.clientWs.toNat ∧
      (clientWsClose s code reason).1.isDeepgramConnected = s.isDeepgramConnected ∧
      (2 ≤ s.deepgramWs.toNat → 2 ≤ (clientWsClose s code reason).1.deepgramWs.toNat) := by
  unfold clientWsClose
  split_ifs <;>
    simp [clientCloses, clientSends, deepgramSends, deepgramCloses, Session.exited,
      ReadyState.toNat]

/-- The error handler on an open browser socket. -/
theorem deepgramWsOnError_open (s : Session) (err : String)
    (hopen : s.clientWs = ReadyState.OPEN) :
    deepgramWsOnError s err
      = ({ s with clientWs := ReadyState.CLOSING },
          [Call.console Log.deepgramError,
            Call.clientClose 1011 "Deepgram connection error"]) := by
  simp only [deepgramWsOnError, hopen, if_true]
  rw [clientWsClose_error]
  rfl

/-- What the close handler of the Deepgram leg does to the session and which
calls it makes, whether the close it asks for is sent or refused. -/
theorem deepgramWsOnClose_facts (s : Session) (code : Nat) (reason : Option String) :
    (deepgramWsOnClose s code reason).1.isDeepgramConnected = s.isDeepgramConnected ∧
      deepgramCloses (deepgramWsOnClose s code reason).2 = 0 ∧
      deepgramSends (deepgramWsOnClose s code reason).2 = [] ∧
      clientSends (deepgramWsOnClose s code reason).2 = [] ∧
      (2 ≤ s.deepgramWs.toNat → 2 ≤ (deepgramWsOnClose s code reason).1.deepgramWs.toNat) ∧
      (s.clientWs ≠ ReadyState.OPEN →
        (deepgramWsOnClose s code reason).1 = s ∧
        clientCloses (deepgramWsOnClose s code reason).2 = []) ∧
      (s.clientWs = ReadyState.OPEN →
        clientCloses (deepgramWsOnClose s code reason).2 = [(code, reasonStr reason)] ∧
        2 ≤ (deepgramWsOnClose s code reason).1.clientWs.toNat) := by
  have hq := closeLogs_quiet code
  have hc := clientWsClose_facts s code (reasonStr reason)
  by_cases hopen : s.clientWs = ReadyState.OPEN
  · simp only [deepgramWsOnClose, hopen, if_true]
    refine ⟨hc.2.2.2.2.2.1, ?_, ?_, ?_, hc.2.2.2.2.2.2, fun h => absurd rfl h, fun _ => ⟨?_, hc.2.2.2.2.1⟩⟩
    · rw [deepgramCloses_append, hq.2.2.2.1, hc.2.2.2.1]
    · rw [deepgramSends_append, hq.2.2.1, hc.2.2.1]; rfl
    · rw [clientSends_append, hq.1, hc.2.1]; rfl
    · rw [clientCloses_append, hq.2.1, hc.1]; rfl
  · have e : deepgramWsOnClose s code reason = (s, closeLogs code) := by
      simp only [deepgramWsOnClose, hopen, if_false]
    rw [e]
    exact ⟨rfl, hq.2.2.2.1, hq.2.2.1, hq.1, fun h => h, fun _ => ⟨rfl, hq.2.1⟩,
      fun h => absurd h hopen⟩

/-- What the error handler of the Deepgram leg does to the session and which
calls it makes. -/
theorem deepgramWsOnError_facts (s : Session) (err : String) :
    (deepgramWsOnError s err).1.isDeepgramConnected = s.isDeepgramConnected ∧
      deepgramCloses (deepgramWsOnError s err).2 = 0 ∧
      deepgramSends (deepgramWsOnError s err).2 = [] ∧
      clientSends (deepgramWsOnError s err).2 = [] ∧
      (deepgramWsOnError s err).1.deepgramWs = s.deepgramWs ∧
      (s.clientWs ≠ ReadyState.OPEN →
        (deepgramWsOnError s err).1 = s ∧ clientCloses (deepgramWsOnError s err).2 = []) ∧
      (s.clientWs = ReadyState.OPEN →
        clientCloses (deepgramWsOnError s err).2 = [(1011, "Deepgram connection error")] ∧
        (deepgramWsOnError s err).1.clientWs = ReadyState.CLOSING) := by
  by_cases hopen : s.clientWs = ReadyState.OPEN
  · rw [deepgramWsOnError_open s err hopen]
    exact ⟨rfl, rfl, rfl, rfl, rfl, fun h => absurd hopen h, fun _ => ⟨rfl, rfl⟩⟩
  · have e : deepgramWsOnError s err = (s, [Call.console Log.deepgramError]) := by
      simp only [deepgramWsOnError, hopen, if_false]
    rw [e]
    exact ⟨rfl, rfl, rfl, rfl, rfl, fun _ => ⟨rfl, rfl⟩, fun h => absurd h hopen⟩

/-- A run over two event lists in a row. -/
theorem run_append (s : Session) (xs ys : List Event) :
    run s (xs ++ ys)
      = ((run (run s xs).1 ys).1, (run s xs).2 ++ (run (run s xs).1 ys).2) := by
  induction xs generalizing s with
  | nil => simp [run]
  | cons e es ih => simp [run, ih, List.append_assoc]

/-- A number literal does not parse to `undefined`. -/
theorem JSON.parseNumber_ne_undefined (cs rest : List Char) :
    JSON.parseNumber cs ≠ some (JSValue.undefined, rest) := by
  intro h
  simp only [JSON.parseNumber] at h
  split at h
  · simp at h
  · split_ifs at h
    split at h
    · simp at h
    · split at h <;> simp at h

/-- No JSON value parses to `undefined`. -/
theorem JSON.parseValue_ne_undefined (fuel : Nat) (cs rest : List Char) :
    JSON.parseValue fuel cs ≠ some (JSValue.undefined, rest) := by
  intro h
  cases fuel with
  | zero => simp [JSON.parseValue] at h
  | succ n =>
    cases cs with
    | nil => simp [JSON.parseValue] at h
    | cons c r =>
      simp only [JSON.parseValue] at h
      split_ifs at h
      all_goals first
        | exact JSON.parseNumber_ne_undefined _ _ h
        | (split at h <;> simp at h)
        | (split at h <;> (try split at h) <;> simp at h)

/-- The built-in `JSON.parse` never returns `undefined`. -/
theorem JSON.parse_ne_undefined (text : String) :
    JSON.parse text ≠ some JSValue.undefined := by
  intro h
  simp only [JSON.parse] at h
  split at h
  · simp at h
  · rename_i v rest hv
    split at h
    · simp only [Option.some.injEq] at h
      subst h
      exact JSON.parseValue_ne_undefined _ _ _ hv
    · simp at h

/-- On a value `JSON.parse` returned, the property reads of the message
handler throw only for `null`. -/
theorem inspectMessage_parse (text : String) (msg : JSValue)
    (h : JSON.parse text = some msg) (hnull : msg ≠ JSValue.null) :
    ∃ logs, inspectMessage msg = some logs :=
  inspectMessage_some msg hnull (fun hu => JSON.parse_ne_undefined text (hu ▸ h))

/-! ## The fuel of the parser is enough -/

namespace JSON

/-- Skipping whitespace does not lengthen the input. -/
theorem skipWhitespace_length (cs : List Char) : (skipWhitespace cs).length ≤ cs.length := by
  induction cs with
  | nil => simp [skipWhitespace]
  | cons c cs ih =>
    simp only [skipWhitespace]
    split_ifs
    · simp only [List.length_cons]; omega
    · exact Nat.le_refl _

/-- Consuming expected characters does not lengthen the input. -/
theorem expect_length (ps cs rest : List Char) (h : expect ps cs = some rest) :
    rest.length ≤ cs.length := by
  induction ps generalizing cs with
  | nil => simp [expect] at h; subst h; exact Nat.le_refl _
  | cons p ps ih =>
    cases cs with
    | nil => simp [expect] at h
    | cons c cs =>
      simp only [expect] at h
      split_ifs at h
      have := ih cs h
      simp only [List.length_cons]; omega

/-- A result with code units prepended comes from a result with the same
rest of input. -/
theorem consUnits_some (us : List Nat) (o : Option (JSString × List Char)) (s : JSString)
    (rest : List Char) (h : consUnits us o = some (s, rest)) : ∃ s0, o = some (s0, rest) := by
  cases o with
  | none => simp [consUnits] at h
  | some p =>
    obtain ⟨s0, r0⟩ := p
    simp only [consUnits, Option.some.injEq, Prod.mk.injEq] at h
    exact ⟨s0, by rw [h.2]⟩

/-- A string body leaves no more input than it was given. -/
theorem parseStringBody_length (n : Nat) : ∀ (cs : List Char) (s : JSString) (rest : List Char),
    cs.length ≤ n → parseStringBody cs = some (s, rest) → rest.length ≤ cs.length := by
  induction n using Nat.strong_induction_on with
  | _ n ih =>
    intro cs s rest hn h
    cases cs with
    | nil => simp [parseStringBody] at h
    | cons c r =>
      unfold parseStringBody at h
      simp only [List.length_cons] at hn ⊢
      split_ifs at h
      · simp only [Option.some.injEq, Prod.mk.injEq] at h
        rw [← h.2]; omega
      · split at h
        · simp at h
        · rename_i e rest1
          simp only [List.length_cons] at hn ⊢
          split_ifs at h
          · split at h
            · rename_i h1 h2 h3 h4 rest2
              simp only [List.length_cons] at hn ⊢
              split at h
              · obtain ⟨s0, h0⟩ := consUnits_some _ _ _ _ h
                have := ih rest2.length (by omega) rest2 s0 rest (Nat.le_refl _) h0
                omega
              · simp at h
            · simp at h
          · split at h
            · obtain ⟨s0, h0⟩ := consUnits_some _ _ _ _ h
              have := ih rest1.length (by omega) rest1 s0 rest (Nat.le_refl _) h0
              omega
            · simp at h
      · obtain ⟨s0, h0⟩ := consUnits_some _ _ _ _ h
        have := ih r.length (by omega) r s0 rest (Nat.le_refl _) h0
        omega

/-- Splitting off digits does not lengthen the input. -/
theorem takeDigits_length (cs : List Char) : (takeDigits cs).2.length ≤ cs.length := by
  induction cs with
  | nil => simp [takeDigits]
  | cons c cs ih =>
    simp only [takeDigits]
    split_ifs
    · simp only [List.length_cons]; omega
    · exact Nat.le_refl _

/-- The input left after the digits is no longer than the input. -/
theorem takeDigits_pair_length (cs ds rest : List Char) (h : takeDigits cs = (ds, rest)) :
    rest.length ≤ cs.length := by
  have := takeDigits_length cs
  rw [h] at this
  exact this

/-- A fraction part leaves no more input than it was given. -/
theorem parseFraction_length (cs ds rest : List Char) (h : parseFraction cs = some (ds, rest)) :
    rest.length ≤ cs.length := by
  unfold parseFraction at h
  split at h
  · rename_i r
    split at h
    · simp at h
    · rename_i ds1 r1 _ heq
      have := takeDigits_pair_length _ _ _ heq
      simp only [Option.some.injEq, Prod.mk.injEq] at h
      simp only [List.length_cons]
      rw [← h.2]
      omega
  · simp only [Option.some.injEq, Prod.mk.injEq] at h
    rw [← h.2]

/-- An exponent part leaves no more input than it was given. -/
theorem parseExponent_length (cs rest : List Char) (e : Int)
    (h : parseExponent cs = some (e, rest)) : rest.length ≤ cs.length := by
  unfold parseExponent at h
  split at h
  · simp only [Option.some.injEq, Prod.mk.injEq] at h
    rw [← h.2]
  · rename_i c r
    split_ifs at h
    · split at h
      · split at h
        · simp at h
        · rename_i r1 ds r2 _ heq
          have := takeDigits_pair_length _ _ _ heq
          simp only [Option.some.injEq, Prod.mk.injEq] at h
          rw [← h.2]
          simp only [List.length_cons]; omega
      · split at h
        · simp at h
        · rename_i r1 ds r2 _ heq
          have := takeDigits_pair_length _ _ _ heq
          simp only [Option.some.injEq, Prod.mk.injEq] at h
          rw [← h.2]
          simp only [List.length_cons]; omega
      · split at h
        · simp at h
        · rename_i ds r2 _ heq
          have := takeDigits_pair_length _ _ _ heq
          simp only [Option.some.injEq, Prod.mk.injEq] at h
          rw [← h.2]
          simp only [List.length_cons]; omega
    · simp only [Option.some.injEq, Prod.mk.injEq] at h
      rw [← h.2]

/-- A number leaves no more input than it was given. -/
theorem parseNumber_length (cs rest : List Char) (v : JSValue)
    (h : parseNumber cs = some (v, rest)) : rest.length ≤ cs.length := by
  simp only [parseNumber] at h
  have hsigned : (parseSign cs).2.length ≤ cs.length := by
    unfold parseSign
    split
    · simp only [List.length_cons]; omega
    · exact Nat.le_refl _
  split at h
  · simp at h
  · rename_i d ds r heq
    have h1 := takeDigits_pair_length _ _ _ heq
    split_ifs at h
    split at h
    · simp at h
    · rename_i fs r1 hf
      have h2 := parseFraction_length _ _ _ hf
      split at h
      · simp at h
      · rename_i e r2 he
        have h3 := parseExponent_length _ _ _ he
        simp only [Option.some.injEq, Prod.mk.injEq] at h
        rw [← h.2]
        omega


/-- Fuel is enough for a value when it is for the elements and members one
level down. -/
theorem parseValue_fuel_step (n : Nat) (hE : FuelEnough parseElements n)
    (hM : FuelEnough parseMembers n) : FuelEnough parseValue (n + 1) := by
  intro cs v rest h
  cases cs with
  | nil => simp [parseValue] at h
  | cons c r0 =>
    have hws := skipWhitespace_length r0
    have h0 := h
    simp only [parseValue] at h
    split_ifs at h with h1 h2 h3 h4 h5 h6 h7
    · split at h
      · rename_i r heq
        simp only [Option.some.injEq, Prod.mk.injEq] at h
        obtain ⟨hv, hr⟩ := h
        subst hv; subst hr
        rw [heq] at hws
        simp only [List.length_cons] at hws ⊢
        refine ⟨by omega, fun m hm => ?_⟩
        obtain ⟨m1, rfl⟩ : ∃ m1, m = m1 + 1 := ⟨m - 1, by omega⟩
        simp [parseValue, h1, heq]
      · rename_i cs1 hne
        split at h
        · simp at h
        · rename_i kvs r hmem
          simp only [Option.some.injEq, Prod.mk.injEq] at h
          obtain ⟨hv, hr⟩ := h
          subst hv; subst hr
          obtain ⟨hlen, hfuel⟩ := hM _ _ _ hmem
          simp only [List.length_cons] at hws ⊢
          refine ⟨by omega, fun m hm => ?_⟩
          obtain ⟨m1, rfl⟩ : ∃ m1, m = m1 + 1 := ⟨m - 1, by omega⟩
          have := hfuel m1 (by omega)
          simp only [parseValue, h1, if_true]
          split <;> simp_all
    · split at h
      · rename_i r heq
        simp only [Option.some.injEq, Prod.mk.injEq] at h
        obtain ⟨hv, hr⟩ := h
        subst hv; subst hr
        rw [heq] at hws
        simp only [List.length_cons] at hws ⊢
        refine ⟨by omega, fun m hm => ?_⟩
        obtain ⟨m1, rfl⟩ : ∃ m1, m = m1 + 1 := ⟨m - 1, by omega⟩
        simp [parseValue, h1, h2, heq]
      · rename_i cs1 hne
        split at h
        · simp at h
        · rename_i vs r helem
          simp only [Option.some.injEq, Prod.mk.injEq] at h
          obtain ⟨hv, hr⟩ := h
          subst hv; subst hr
          obtain ⟨hlen, hfuel⟩ := hE _ _ _ helem
          simp only [List.length_cons] at hws ⊢
          refine ⟨by omega, fun m hm => ?_⟩
          obtain ⟨m1, rfl⟩ : ∃ m1, m = m1 + 1 := ⟨m - 1, by omega⟩
          have := hfuel m1 (by omega)
          simp only [parseValue, h1, h2, if_true, if_false]
          split <;> simp_all
    · have hlen : rest.length ≤ r0.length := by
        split at h
        · simp at h
        · rename_i s r hs
          simp only [Option.some.injEq, Prod.mk.injEq] at h
          rw [← h.2]
          exact parseStringBody_length _ _ _ _ (Nat.le_refl _) hs
      simp only [List.length_cons]
      refine ⟨by omega, fun m hm => ?_⟩
      obtain ⟨m1, rfl⟩ : ∃ m1, m = m1 + 1 := ⟨m - 1, by omega⟩
      simp only [parseValue, h1, h2, h3, if_true, if_false] at h0 ⊢
      exact h0
    · have hlen : rest.length ≤ r0.length := by
        split at h
        · simp at h
        · rename_i r hs
          simp only [Option.some.injEq, Prod.mk.injEq] at h
          rw [← h.2]
          exact expect_length _ _ _ hs
      simp only [List.length_cons]
      refine ⟨by omega, fun m hm => ?_⟩
      obtain ⟨m1, rfl⟩ : ∃ m1, m = m1 + 1 := ⟨m - 1, by omega⟩
      simp only [parseValue, h1, h2, h3, h4, if_true, if_false] at h0 ⊢
      exact h0
    · have hlen : rest.length ≤ r0.length := by
        split at h
        · simp at h
        · rename_i r hs
          simp only [Option.some.injEq, Prod.mk.injEq] at h
          rw [← h.2]
          exact expect_length _ _ _ hs
      simp only [List.length_cons]
      refine ⟨by omega, fun m hm => ?_⟩
      obtain ⟨m1, rfl⟩ : ∃ m1, m = m1 + 1 := ⟨m - 1, by omega⟩
      simp only [parseValue, h1, h2, h3, h4, h5, if_true, if_false] at h0 ⊢
      exact h0
    · have hlen : rest.length ≤ r0.length := by
        split at h
        · simp at h
        · rename_i r hs
          simp only [Option.some.injEq, Prod.mk.injEq] at h
          rw [← h.2]
          exact expect_length _ _ _ hs
      simp only [List.length_cons]
      refine ⟨by omega, fun m hm => ?_⟩
      obtain ⟨m1, rfl⟩ : ∃ m1, m = m1 + 1 := ⟨m - 1, by omega⟩
      simp only [parseValue, h1, h2, h3, h4, h5, h6, if_true, if_false] at h0 ⊢
      exact h0
    · have hlen := parseNumber_length _ _ _ h
      refine ⟨hlen, fun m hm => ?_⟩
      obtain ⟨m1, rfl⟩ : ∃ m1, m = m1 + 1 := ⟨m - 1, by omega⟩
      simp only [parseValue, h1, h2, h3, h4, h5, h6, h7, if_true, if_false] at h0 ⊢
      exact h0

/-- Fuel is enough for the elements of an array when it is for a value and
for the elements one level down. -/
theorem parseElements_fuel_step (n : Nat) (hV : FuelEnough parseValue n)
    (hE : FuelEnough parseElements n) : FuelEnough parseElements (n + 1) := by
  intro cs vs rest h
  simp only [parseElements] at h
  split at h
  · simp at h
  · rename_i v r hval
    obtain ⟨hlen1, hfuel1⟩ := hV _ _ _ hval
    have hws := skipWhitespace_length r
    split at h
    · rename_i r1 heq
      have hws1 := skipWhitespace_length r1
      rw [heq] at hws
      simp only [List.length_cons] at hws
      split at h
      · simp at h
      · rename_i vs1 r2 helem
        obtain ⟨hlen2, hfuel2⟩ := hE _ _ _ helem
        simp only [Option.some.injEq, Prod.mk.injEq] at h
        obtain ⟨hv, hr⟩ := h
        subst hv; subst hr
        refine ⟨by omega, fun m hm => ?_⟩
        obtain ⟨m1, rfl⟩ : ∃ m1, m = m1 + 1 := ⟨m - 1, by omega⟩
        have e1 := hfuel1 m1 (by omega)
        have e2 := hfuel2 m1 (by omega)
        simp [parseElements, e1, heq, e2]
    · rename_i r1 heq
      rw [heq] at hws
      simp only [List.length_cons] at hws
      simp only [Option.some.injEq, Prod.mk.injEq] at h
      obtain ⟨hv, hr⟩ := h
      subst hv; subst hr
      refine ⟨by omega, fun m hm => ?_⟩
      obtain ⟨m1, rfl⟩ : ∃ m1, m = m1 + 1 := ⟨m - 1, by omega⟩
      have e1 := hfuel1 m1 (by omega)
      simp [parseElements, e1, heq]
    · simp at h

/-- Fuel is enough for the members of an object when it is for a value and
for the members one level down. -/
theorem parseMembers_fuel_step (n : Nat) (hV : FuelEnough parseValue n)
    (hM : FuelEnough parseMembers n) : FuelEnough parseMembers (n + 1) := by
  intro cs kvs rest h
  simp only [parseMembers] at h
  split at h
  · rename_i r
    split at h
    · simp at h
    · rename_i k r1 hkey
      have hlen0 := parseStringBody_length _ _ _ _ (Nat.le_refl _) hkey
      have hws1 := skipWhitespace_length r1
      split at h
      · rename_i r2 heq2
        rw [heq2] at hws1
        have hws2 := skipWhitespace_length r2
        split at h
        · simp at h
        · rename_i v r3 hval
          obtain ⟨hlen3, hfuel3⟩ := hV _ _ _ hval
          have hws3 := skipWhitespace_length r3
          split at h
          · rename_i r4 heq4
            rw [heq4] at hws3
            have hws4 := skipWhitespace_length r4
            split at h
            · simp at h
            · rename_i kvs1 r5 hmem
              obtain ⟨hlen5, hfuel5⟩ := hM _ _ _ hmem
              simp only [Option.some.injEq, Prod.mk.injEq] at h
              obtain ⟨hv, hr⟩ := h
              subst hv; subst hr
              simp only [List.length_cons] at hws1 hws3 ⊢
              refine ⟨by omega, fun m hm => ?_⟩
              obtain ⟨m1, rfl⟩ : ∃ m1, m = m1 + 1 := ⟨m - 1, by omega⟩
              have e3 := hfuel3 m1 (by omega)
              have e5 := hfuel5 m1 (by omega)
              simp [parseMembers, hkey, heq2, e3, heq4, e5]
          · rename_i r4 heq4
            rw [heq4] at hws3
            simp only [Option.some.injEq, Prod.mk.injEq] at h
            obtain ⟨hv, hr⟩ := h
            subst hv; subst hr
            simp only [List.length_cons] at hws1 hws3 ⊢
            refine ⟨by omega, fun m hm => ?_⟩
            obtain ⟨m1, rfl⟩ : ∃ m1, m = m1 + 1 := ⟨m - 1, by omega⟩
            have e3 := hfuel3 m1 (by omega)
            simp [parseMembers, hkey, heq2, e3, heq4]
          · simp at h
      · simp at h
  · simp at h

/-- No amount of fuel limits the three parsers. -/
theorem fuel_enough (n : Nat) :
    FuelEnough parseValue n ∧ FuelEnough parseElements n ∧ FuelEnough parseMembers n := by
  induction n with
  | zero =>
    refine ⟨?_, ?_, ?_⟩ <;> intro cs a rest h
    · simp [parseValue] at h
    · simp [parseElements] at h
    · simp [parseMembers] at h
  | succ n ih =>
    exact ⟨parseValue_fuel_step n ih.2.1 ih.2.2, parseElements_fuel_step n ih.1 ih.2.1,
      parseMembers_fuel_step n ih.1 ih.2.2⟩

/-- The fuel `JSON.parse` passes on is no restriction: the text is rejected
only when no amount of fuel makes it one JSON value followed by whitespace
alone. -/
theorem parse_eq_none_iff (text : String) :
    parse text = none ↔
      ∀ fuel v rest, parseValue fuel (skipWhitespace text.toList) = some (v, rest) →
        skipWhitespace rest ≠ [] := by
  constructor
  · intro h fuel v rest hv hrest
    obtain ⟨hlen, hfuel⟩ := (fuel_enough fuel).1 _ _ _ hv
    have hws := skipWhitespace_length text.toList
    have hl : text.toList.length = text.length := rfl
    have := hfuel (2 * text.length + 2) (by omega)
    unfold parse at h
    rw [this] at h
    simp [hrest] at h
  · intro h
    simp only [parse]
    split
    · rfl
    · rename_i v rest hv
      have := h _ _ _ hv
      split
      · rename_i hnil; exact absurd hnil this
      · rfl

/-- The value `JSON.parse` returns is the value any amount of fuel that
gives one gives. -/
theorem parse_eq_some_iff (text : String) (v : JSValue) :
    parse text = some v ↔
      ∃ fuel rest, parseValue fuel (skipWhitespace text.toList) = some (v, rest) ∧
        skipWhitespace rest = [] := by
  constructor
  · intro h
    unfold parse at h
    split at h
    · simp at h
    · rename_i v1 rest hv
      split at h
      · rename_i hnil
        simp only [Option.some.injEq] at h
        subst h
        exact ⟨_, rest, hv, hnil⟩
      · simp at h
  · rintro ⟨fuel, rest, hv, hrest⟩
    obtain ⟨hlen, hfuel⟩ := (fuel_enough fuel).1 _ _ _ hv
    have hws := skipWhitespace_length text.toList
    have hl : text.toList.length = text.length := rfl
    have := hfuel (2 * text.length + 2) (by omega)
    unfold parse
    rw [this]
    simp [hrest]

end JSON

/-! ## Close propagation from the Deepgram leg -/

/-- The close handler on an open browser socket, when `ws` accepts the close
it asks for. -/
theorem deepgramWsOnClose_valid (s : Session) (code : Nat) (reason : Option String)
    (hopen : s.clientWs = ReadyState.OPEN) (hcode : isValidStatusCode code = true)
    (hlen : (reasonStr reason).utf8ByteSize ≤ 123) :
    deepgramWsOnClose s code reason
      = ({ s with clientWs := ReadyState.CLOSING },
          closeLogs code ++ [Call.clientClose code (reasonStr reason)]) := by
  simp only [deepgramWsOnClose, hopen, if_true]
  rw [clientWsClose_valid s code _ hcode hlen]

/-- C1, as the code has it: when the Deepgram close event fires with a code
`C` that `ws` accepts in a close call and a reason `R` of at most 123 bytes
while the browser socket is open, the handler closes the browser socket
once, with code `C`, and makes no other socket call; the reason passed is
`R` when `R` is not empty, and the text "No reason provided" when `R` is
empty or absent; the browser socket is `CLOSING` afterwards.  The codes
`ws` refuses, 1005 and 1006 among them, are not covered. -/
theorem deepgram_close_propagates (s : Session) (code : Nat) (reason : String)
    (hopen : s.clientWs = ReadyState.OPEN) (hcode : isValidStatusCode code = true)
    (hlen : reason.utf8ByteSize ≤ 123) :
    (reason ≠ "" →
        socketCalls (deepgramWsOnClose s code (some reason)).2
          = [Call.clientClose code reason] ∧
        clientCloses (deepgramWsOnClose s code (some reason)).2 = [(code, reason)] ∧
        (deepgramWsOnClose s code (some reason)).1
          = { s with clientWs := ReadyState.CLOSING }) ∧
      (socketCalls (deepgramWsOnClose s code (some "")).2
          = [Call.clientClose code "No reason provided"] ∧
        (deepgramWsOnClose s code (some "")).1
          = { s with clientWs := ReadyState.CLOSING }) ∧
      (socketCalls (deepgramWsOnClose s code none).2
          = [Call.clientClose code "No reason provided"] ∧
        (deepgramWsOnClose s code none).1 = { s with clientWs := ReadyState.CLOSING }) := by
  have hdefault : ("No reason provided" : String).utf8ByteSize ≤ 123 := by decide
  have key : ∀ r, (reasonStr r).utf8ByteSize ≤ 123 →
      socketCalls (deepgramWsOnClose s code r).2 = [Call.clientClose code (reasonStr r)] ∧
      clientCloses (deepgramWsOnClose s code r).2 = [(code, reasonStr r)] ∧
      (deepgramWsOnClose s code r).1 = { s with clientWs := ReadyState.CLOSING } := by
    intro r hr
    rw [deepgramWsOnClose_valid s code r hopen hcode hr]
    refine ⟨?_, ?_, rfl⟩
    · show socketCalls (closeLogs code ++ _) = _
      rw [socketCalls_append, (closeLogs_quiet code).2.2.2.2]
      rfl
    · show clientCloses (closeLogs code ++ _) = _
      rw [clientCloses_append, (closeLogs_quiet code).2.1]
      rfl
  refine ⟨fun hne => ?_, ?_, ?_⟩
  · have hr : reasonStr (some reason) = reason := by simp [reasonStr, hne]
    have := key (some reason) (by rw [hr]; exact hlen)
    rw [hr] at this
    exact this
  · have hr : reasonStr (some "") = "No reason provided" := by simp [reasonStr]
    have := key (some "") (by rw [hr]; exact hdefault)
    rw [hr] at this
    exact ⟨this.1, this.2.2⟩
  · have hr : reasonStr none = "No reason provided" := rfl
    have := key none (by rw [hr]; exact hdefault)
    rw [hr] at this
    exact ⟨this.1, this.2.2⟩

/-- Witness of `deepgram_close_propagates`: a normal closure with the reason
"bye" on the fresh session. -/
theorem deepgram_close_propagates_witness :
    Session.initial.clientWs = ReadyState.OPEN ∧ isValidStatusCode 1000 = true ∧
      ("bye" : String).utf8ByteSize ≤ 123 ∧
      socketCalls (deepgramWsOnClose Session.initial 1000 (some "bye")).2
        = [Call.clientClose 1000 "bye"] :=
  ⟨rfl, by decide, by decide,
    ((deepgram_close_propagates Session.initial 1000 "bye" rfl (by decide) (by decide)).1
      (by decide)).1⟩

/-- C1 fails for the empty reason: the browser socket is open, the Deepgram
close event carries code 1000, which `ws` accepts, and the empty reason, and
the browser socket is closed with the reason "No reason provided", not with
the empty one. -/
theorem deepgram_close_empty_reason :
    Session.initial.clientWs = ReadyState.OPEN ∧ isValidStatusCode 1000 = true ∧
      socketCalls (deepgramWsOnClose Session.initial 1000 (some "")).2
        = [Call.clientClose 1000 "No reason provided"] ∧
      clientCloses (deepgramWsOnClose Session.initial 1000 (some "")).2
        = [(1000, "No reason provided")] ∧
      clientCloses (deepgramWsOnClose Session.initial 1000 (some "")).2 ≠ [(1000, "")] := by
  decide

/-- The close codes 1005 and 1006, the ones the handler's own diagnostics
expect, are refused by `ws`: on an open browser socket the close call throws
`TypeError`, no close frame reaches the browser, and the exception leaves
the handler uncaught. -/
theorem deepgram_close_reserved_code_throws :
    isValidStatusCode 1005 = false ∧ isValidStatusCode 1006 = false ∧
      socketCalls (deepgramWsOnClose Session.initial 1005 (some "")).2
        = [Call.clientClose 1005 "No reason provided", Call.uncaught Thrown.typeError] ∧
      socketCalls (deepgramWsOnClose Session.initial 1006 (some "")).2
        = [Call.clientClose 1006 "No reason provided", Call.uncaught Thrown.typeError] ∧
      (deepgramWsOnClose Session.initial 1006 (some "")).1 = Session.initial.exited := by
  decide

/-! ## Forwarding from Deepgram to the browser -/

/-- C2, as the code has it: while the browser socket is open, a payload
whose text parses as JSON to a value other than `null` is sent to the
browser socket once, its text unchanged; a payload that does not parse is
not sent at all. -/
theorem deepgram_message_forwarded (s : Session) (data : String)
    (hopen : s.clientWs = ReadyState.OPEN) :
    (∀ msg, JSON.parse data = some msg → msg ≠ JSValue.null →
        clientSends (deepgramWsOnMessage s data).2 = [data]) ∧
      (JSON.parse data = none → clientSends (deepgramWsOnMessage s data).2 = []) := by
  refine ⟨fun msg hmsg hnull => ?_, fun hnone => ?_⟩
  · obtain ⟨logs, hlogs⟩ := inspectMessage_parse data msg hmsg hnull
    simp [deepgramWsOnMessage, hmsg, hlogs, hopen, clientSends_append,
      (inspectMessage_quiet msg logs hlogs).1, clientSends]
  · simp [deepgramWsOnMessage, hnone, clientSends]

/-- Witness of `deepgram_message_forwarded`: the number `17` parses and is
forwarded on the fresh session. -/
theorem deepgram_message_forwarded_witness :
    Session.initial.clientWs = ReadyState.OPEN ∧
      clientSends (deepgramWsOnMessage Session.initial "17").2 = ["17"] :=
  ⟨rfl, (deepgram_message_forwarded Session.initial "17" rfl).1
    (JSValue.number false 17 0) (by rfl) (by simp)⟩

/-- C2 fails for a payload that is not JSON: the browser socket is open,
the payload `not json` arrives from Deepgram, and nothing is sent to the
browser socket. -/
theorem deepgram_message_not_json_dropped :
    Session.initial.clientWs = ReadyState.OPEN ∧
      JSON.parse "not json" = none ∧
      clientSends (deepgramWsOnMessage Session.initial "not json").2 = [] ∧
      clientSends (deepgramWsOnMessage Session.initial "not json").2 ≠ ["not json"] := by
  refine ⟨rfl, by rfl, by decide, by decide⟩

/-- C9 at the payload `null`: the text decodes as JSON, to the value `null`;
reading `msg.type` then throws, the `catch` clause reports it, and although
the browser socket is open nothing is sent to it. -/
theorem deepgram_message_null_dropped :
    Session.initial.clientWs = ReadyState.OPEN ∧
      JSON.parse "null" = some JSValue.null ∧
      deepgramWsOnMessage Session.initial "null"
        = (Session.initial, [Call.console Log.processingError]) ∧
      clientSends (deepgramWsOnMessage Session.initial "null").2 = [] := by
  refine ⟨rfl, by rfl, by decide, by decide⟩

/-- What C9 says does hold whenever the decoded value is not `null`,
whatever `msg.type` is: one send of the text if the browser socket is open,
none otherwise, and in both cases no close and no change of state. -/
theorem deepgram_message_decoded (s : Session) (data : String) (msg : JSValue)
    (hmsg : JSON.parse data = some msg) (hnull : msg ≠ JSValue.null) :
    socketCalls (deepgramWsOnMessage s data).2
        = (if s.clientWs = ReadyState.OPEN then [Call.clientSend data] else []) ∧
      (deepgramWsOnMessage s data).1 = s := by
  obtain ⟨logs, hlogs⟩ := inspectMessage_parse data msg hmsg hnull
  by_cases hopen : s.clientWs = ReadyState.OPEN
  · simp [deepgramWsOnMessage, hmsg, hlogs, hopen, socketCalls_append,
      (inspectMessage_quiet msg logs hlogs).2.2.2.2, socketCalls]
  · simp [deepgramWsOnMessage, hmsg, hlogs, hopen,
      (inspectMessage_quiet msg logs hlogs).2.2.2.2]

/-- The transcript scenario: a `Results` event with the transcript `hello`
arrives while the browser socket is open; the transcript is reported on
`console` and the text is sent to the browser as it came. -/
theorem results_event_forwarded :
    deepgramWsOnMessage Session.initial
        "\x7b\"type\":\"Results\",\"channel\":\x7b\"alternatives\":[\x7b\"transcript\":\"hello\"\x7d]\x7d\x7d"
      = (Session.initial,
          [Call.console Log.transcript,
            Call.clientSend
              "\x7b\"type\":\"Results\",\"channel\":\x7b\"alternatives\":[\x7b\"transcript\":\"hello\"\x7d]\x7d\x7d"]) := by
  decide

/-! ## Malformed payloads -/

/-- What the message handler does with a payload that does not parse. -/
theorem deepgramWsOnMessage_of_parse_none (s : Session) (data : String)
    (h : JSON.parse data = none) :
    deepgramWsOnMessage s data = (s, [Call.console Log.processingError]) := by
  simp [deepgramWsOnMessage, h]

/-- C6: a Deepgram payload that does not parse as JSON makes the message
handler issue no call on either socket, so no close request, and leave the
session as it was; hence any events that follow, a valid message among
them, produce the same socket calls and the same final session as if the
malformed payload had never arrived. -/
theorem malformed_payload_is_harmless (s : Session) (data : String)
    (hbad : JSON.parse data = none) :
    socketCalls (deepgramWsOnMessage s data).2 = [] ∧
      clientCloses (deepgramWsOnMessage s data).2 = [] ∧
      deepgramCloses (deepgramWsOnMessage s data).2 = 0 ∧
      (deepgramWsOnMessage s data).1 = s ∧
      (∀ next, deepgramWsOnMessage (deepgramWsOnMessage s data).1 next
          = deepgramWsOnMessage s next) ∧
      (∀ later, (run s (Event.deepgramMessage data :: later)).1 = (run s later).1 ∧
          socketCalls (run s (Event.deepgramMessage data :: later)).2
            = socketCalls (run s later).2) := by
  have h := deepgramWsOnMessage_of_parse_none s data hbad
  refine ⟨?_, ?_, ?_, ?_, ?_, ?_⟩
  · rw [h]; rfl
  · rw [h]; rfl
  · rw [h]; rfl
  · rw [h]
  · intro next; rw [h]
  · intro later
    simp only [run, step]
    rw [h]
    exact ⟨rfl, rfl⟩

/-- Witness of `malformed_payload_is_harmless`: the payload `not json`,
followed by the message `17`, on the fresh session. -/
theorem malformed_payload_is_harmless_witness :
    JSON.parse "not json" = none ∧
      socketCalls
          (run Session.initial [Event.deepgramMessage "not json", Event.deepgramMessage "17"]).2
        = socketCalls (run Session.initial [Event.deepgramMessage "17"]).2 :=
  ⟨by rfl,
    ((malformed_payload_is_harmless Session.initial "not json" (by rfl)).2.2.2.2.2
      [Event.deepgramMessage "17"]).2⟩

/-! ## Closing and failing legs -/

/-- C4, as the code has it: the browser close handler issues one close
request on the Deepgram socket when that socket is open; in every other
ready-state, `CONNECTING` included, it issues none and leaves the session
as it was. -/
theorem client_close_closes_open_deepgram (s : Session) :
    (s.deepgramWs = ReadyState.OPEN →
        socketCalls (clientWsOnClose s).2 = [Call.deepgramClose] ∧
        deepgramCloses (clientWsOnClose s).2 = 1 ∧
        (clientWsOnClose s).1.deepgramWs = ReadyState.CLOSING) ∧
      (s.deepgramWs ≠ ReadyState.OPEN →
        socketCalls (clientWsOnClose s).2 = [] ∧
        deepgramCloses (clientWsOnClose s).2 = 0 ∧
        (clientWsOnClose s).1 = s) := by
  constructor
  · intro h
    simp [clientWsOnClose, h, socketCalls, deepgramCloses]
  · intro h
    simp [clientWsOnClose, h, socketCalls, deepgramCloses]

/-- Witness of `client_close_closes_open_deepgram`: a session whose Deepgram
socket has opened. -/
theorem client_close_closes_open_deepgram_witness :
    (run Session.initial [Event.transport Leg.deepgram ReadyState.OPEN, Event.deepgramOpen]).1.deepgramWs
        = ReadyState.OPEN ∧
      deepgramCloses
          (clientWsOnClose
            (run Session.initial
              [Event.transport Leg.deepgram ReadyState.OPEN, Event.deepgramOpen]).1).2 = 1 :=
  ⟨by decide,
    ((client_close_closes_open_deepgram
      (run Session.initial
        [Event.transport Leg.deepgram ReadyState.OPEN, Event.deepgramOpen]).1).1
      (by decide)).2.1⟩

/-- C4 fails while the Deepgram socket is connecting: on the fresh session
the browser close handler issues no close request, and the Deepgram socket
is still `CONNECTING` afterwards. -/
theorem client_close_while_connecting :
    Session.initial.deepgramWs = ReadyState.CONNECTING ∧
      deepgramCloses (clientWsOnClose Session.initial).2 = 0 ∧
      (clientWsOnClose Session.initial).1.deepgramWs = ReadyState.CONNECTING := by
  decide

/-- C5: while the browser socket is open, the Deepgram error handler closes
it once, with code 1011 and the reason "Deepgram connection error", for
every error; two errors lead to the same code and reason, and the code
differs from 1000, the code of a normal closure. -/
theorem deepgram_error_fixed_close (s : Session) (e1 e2 : String)
    (hopen : s.clientWs = ReadyState.OPEN) :
    clientCloses (deepgramWsOnError s e1).2 = [(1011, "Deepgram connection error")] ∧
      clientCloses (deepgramWsOnError s e2).2 = clientCloses (deepgramWsOnError s e1).2 ∧
      (1011 : Nat) ≠ 1000 := by
  simp [deepgramWsOnError, hopen, clientCloses]

/-- Witness of `deepgram_error_fixed_close`: two different errors on the
fresh session. -/
theorem deepgram_error_fixed_close_witness :
    Session.initial.clientWs = ReadyState.OPEN ∧
      clientCloses (deepgramWsOnError Session.initial "ECONNRESET").2
        = clientCloses
            (deepgramWsOnError Session.initial "Unexpected server response: 401").2 :=
  ⟨rfl,
    (deepgram_error_fixed_close Session.initial "Unexpected server response: 401"
      "ECONNRESET" rfl).2.1⟩

/-- C8, as the code has it: a Deepgram error closes the browser socket when
that socket is open; a browser error makes no call on either socket and
leaves the session as it was, whatever the state of the Deepgram socket; the
close request on an open Deepgram socket comes from the browser close event
that follows the error. -/
theorem error_propagation (s : Session) (err : String) :
    (s.clientWs = ReadyState.OPEN →
        socketCalls (deepgramWsOnError s err).2
          = [Call.clientClose 1011 "Deepgram connection error"]) ∧
      socketCalls (clientWsOnError s err).2 = [] ∧
      deepgramCloses (clientWsOnError s err).2 = 0 ∧
      (clientWsOnError s err).1 = s ∧
      (s.deepgramWs = ReadyState.OPEN →
        socketCalls (run s [Event.clientError err, Event.clientClose]).2
          = [Call.deepgramClose]) := by
  refine ⟨fun h => ?_, rfl, rfl, rfl, fun h => ?_⟩
  · simp [deepgramWsOnError, h, socketCalls]
  · simp [run, step, clientWsOnError, clientWsOnClose, h, socketCalls]

/-- Witness of `error_propagation`: an error on the fresh session. -/
theorem error_propagation_witness :
    Session.initial.clientWs = ReadyState.OPEN ∧
      socketCalls (deepgramWsOnError Session.initial "ECONNRESET").2
        = [Call.clientClose 1011 "Deepgram connection error"] :=
  ⟨rfl, (error_propagation Session.initial "ECONNRESET").1 rfl⟩

/-- C8 fails for the browser leg: with both sockets open, a browser error
issues no close request on the Deepgram socket, which stays open. -/
theorem client_error_leaves_deepgram_open :
    (clientWsOnError
          { isDeepgramConnected := true, clientWs := ReadyState.OPEN,
            deepgramWs := ReadyState.OPEN } "read ECONNRESET").1.deepgramWs
        = ReadyState.OPEN ∧
      deepgramCloses
          (clientWsOnError
            { isDeepgramConnected := true, clientWs := ReadyState.OPEN,
              deepgramWs := ReadyState.OPEN } "read ECONNRESET").2 = 0 := by
  decide

/-! ## Forwarding from the browser to Deepgram -/

/-- The message handler of the Deepgram leg changes nothing and calls only
`console` and `clientWs.send`. -/
theorem deepgramWsOnMessage_quiet (s : Session) (data : String) :
    (deepgramWsOnMessage s data).1 = s ∧
      clientCloses (deepgramWsOnMessage s data).2 = [] ∧
      deepgramSends (deepgramWsOnMessage s data).2 = [] ∧
      deepgramCloses (deepgramWsOnMessage s data).2 = 0 := by
  unfold deepgramWsOnMessage
  split
  · exact ⟨rfl, rfl, rfl, rfl⟩
  · rename_i msg _
    split
    · exact ⟨rfl, rfl, rfl, rfl⟩
    · rename_i logs hlogs
      have hq := inspectMessage_quiet msg logs hlogs
      split_ifs
      · refine ⟨rfl, ?_, ?_, ?_⟩
        · rw [clientCloses_append, hq.2.1]; rfl
        · rw [deepgramSends_append, hq.2.2.1]; rfl
        · rw [deepgramCloses_append, hq.2.2.2.1]; rfl
      · exact ⟨rfl, hq.2.1, hq.2.2.1, hq.2.2.2.1⟩

/-- No event resets the flag `isDeepgramConnected`. -/
theorem step_keeps_flag (s : Session) (e : Event) (h : s.isDeepgramConnected = true) :
    (step s e).1.isDeepgramConnected = true := by
  cases e with
  | transport leg state => cases leg <;> exact h
  | deepgramOpen => rfl
  | deepgramError err =>
    simp only [step]; rw [(deepgramWsOnError_facts s err).1]; exact h
  | deepgramClose code reason =>
    simp only [step]; rw [(deepgramWsOnClose_facts s code reason).1]; exact h
  | deepgramMessage data =>
    simp only [step]; rw [(deepgramWsOnMessage_quiet s data).1]; exact h
  | clientMessage data =>
    simp only [step, clientWsOnMessage]; split_ifs <;> exact h
  | clientClose =>
    simp only [step, clientWsOnClose]; split_ifs <;> exact h
  | clientError err => exact h

/-- Once set, the flag stays set for the rest of the run. -/
theorem run_keeps_flag (s : Session) (events : List Event)
    (h : s.isDeepgramConnected = true) : (run s events).1.isDeepgramConnected = true := by
  induction events generalizing s with
  | nil => exact h
  | cons e es ih => exact ih _ (step_keeps_flag s e h)

/-- After the Deepgram open event has fired the flag is set. -/
theorem flag_after_open (s : Session) (events : List Event)
    (h : Event.deepgramOpen ∈ events) : (run s events).1.isDeepgramConnected = true := by
  induction events generalizing s with
  | nil => simp at h
  | cons e es ih =>
    rcases List.mem_cons.mp h with h1 | h1
    · subst h1
      exact run_keeps_flag _ es rfl
    · exact ih _ h1

/-- C3: in every run, a browser frame that arrives while the flag
`isDeepgramConnected` is still `false` is never sent to Deepgram: the
handler sends nothing when it arrives, and whatever events follow, the open
event among them, the frames sent to Deepgram and the final session are
those of the run without that frame; a frame that arrives after the open
event, with the Deepgram socket open, is sent. -/
theorem early_frame_dropped (s : Session) (before after : List Event) (frame : Frame) :
    ((run s before).1.isDeepgramConnected = false →
        socketCalls (clientWsOnMessage (run s before).1 frame).2 = [] ∧
        (run s (before ++ Event.clientMessage frame :: after)).1
          = (run s (before ++ after)).1 ∧
        deepgramSends (run s (before ++ Event.clientMessage frame :: after)).2
          = deepgramSends (run s (before ++ after)).2) ∧
      (Event.deepgramOpen ∈ before → (run s before).1.deepgramWs = ReadyState.OPEN →
        deepgramSends (run s (before ++ [Event.clientMessage frame])).2
          = deepgramSends (run s before).2 ++ [frame]) := by
  constructor
  · intro hflag
    have hstep : step (run s before).1 (Event.clientMessage frame)
        = ((run s before).1, [Call.console Log.notConnectedYet]) := by
      simp [step, clientWsOnMessage, hflag]
    refine ⟨?_, ?_, ?_⟩
    · simp [clientWsOnMessage, hflag, socketCalls]
    · rw [run_append, run_append]
      simp only [run, hstep]
    · rw [run_append, run_append]
      simp only [run, hstep, deepgramSends_append]
      rfl
  · intro hopen hready
    have hflag := flag_after_open s before hopen
    rw [run_append]
    simp only [run, step, clientWsOnMessage, hflag, hready, deepgramSends_append]
    rfl

/-- Witness of `early_frame_dropped`: the scenario with one frame before the
Deepgram socket opens and one after. -/
theorem early_frame_dropped_witness :
    (run Session.initial []).1.isDeepgramConnected = false ∧
      deepgramSends
          (run Session.initial
            ([] ++ Event.clientMessage [1, 2] ::
              [Event.transport Leg.deepgram ReadyState.OPEN, Event.deepgramOpen,
                Event.clientMessage [3, 4]])).2
        = deepgramSends
            (run Session.initial
              ([] ++ [Event.transport Leg.deepgram ReadyState.OPEN, Event.deepgramOpen,
                Event.clientMessage [3, 4]])).2 ∧
      deepgramSends
          (run Session.initial
            ([Event.clientMessage [1, 2], Event.transport Leg.deepgram ReadyState.OPEN,
              Event.deepgramOpen] ++ [Event.clientMessage [3, 4]])).2
        = deepgramSends
            (run Session.initial
              [Event.clientMessage [1, 2], Event.transport Leg.deepgram ReadyState.OPEN,
                Event.deepgramOpen]).2 ++ [[3, 4]] :=
  ⟨rfl,
    ((early_frame_dropped Session.initial []
      [Event.transport Leg.deepgram ReadyState.OPEN, Event.deepgramOpen,
        Event.clientMessage [3, 4]] [1, 2]).1 rfl).2.2,
    (early_frame_dropped Session.initial
      [Event.clientMessage [1, 2], Event.transport Leg.deepgram ReadyState.OPEN,
        Event.deepgramOpen] [] [3, 4]).2 (by decide) (by decide)⟩

/-- C7: when the flag is set and the Deepgram socket is open, a list of
browser frames delivered one after the other is sent to Deepgram as it is,
frame by frame: the frames passed to `deepgramWs.send` are the frames
received, the calls made are exactly one send per frame, and the session
does not change. -/
theorem frames_forwarded_in_order (s : Session) (frames : List Frame)
    (hflag : s.isDeepgramConnected = true) (hready : s.deepgramWs = ReadyState.OPEN) :
    deepgramSends (run s (frames.map Event.clientMessage)).2 = frames ∧
      (run s (frames.map Event.clientMessage)).2 = frames.map Call.deepgramSend ∧
      (run s (frames.map Event.clientMessage)).1 = s := by
  have hcalls : (run s (frames.map Event.clientMessage)).2 = frames.map Call.deepgramSend ∧
      (run s (frames.map Event.clientMessage)).1 = s := by
    induction frames with
    | nil => exact ⟨rfl, rfl⟩
    | cons f fs ih =>
      have hstep : step s (Event.clientMessage f) = (s, [Call.deepgramSend f]) := by
        simp [step, clientWsOnMessage, hflag, hready]
      simp only [List.map_cons, run, hstep]
      exact ⟨by rw [ih.1]; rfl, ih.2⟩
  refine ⟨?_, hcalls.1, hcalls.2⟩
  rw [hcalls.1]
  clear hcalls
  induction frames with
  | nil => rfl
  | cons f fs ih => simp [deepgramSends, ih]

/-- Witness of `frames_forwarded_in_order`: the Deepgram socket opens, then
the browser sends three frames. -/
theorem frames_forwarded_in_order_witness :
    deepgramSends
        (run
          (run Session.initial
            [Event.transport Leg.deepgram ReadyState.OPEN, Event.deepgramOpen]).1
          ([[1, 2], [], [3]].map Event.clientMessage)).2 = [[1, 2], [], [3]] :=
  (frames_forwarded_in_order
    (run Session.initial [Event.transport Leg.deepgram ReadyState.OPEN, Event.deepgramOpen]).1
    [[1, 2], [], [3]] (by decide) (by decide)).1

/-! ## At most one close request per leg -/

/-- A socket that is closing or closed stays so. -/
theorem advance_closing (current target : ReadyState) (h : 2 ≤ current.toNat) :
    2 ≤ (advance current target).toNat := by
  unfold advance
  split_ifs with hle
  · omega
  · exact h

/-- One event on a browser socket that is closing or closed: no close
request on it, and it is still closing or closed afterwards. -/
theorem step_client_closing (s : Session) (e : Event) (h : 2 ≤ s.clientWs.toNat) :
    clientCloses (step s e).2 = [] ∧ 2 ≤ (step s e).1.clientWs.toNat := by
  have hne : s.clientWs ≠ ReadyState.OPEN := by
    intro h1; rw [h1] at h; simp [ReadyState.toNat] at h
  cases e with
  | transport leg state =>
    cases leg
    · exact ⟨rfl, advance_closing _ _ h⟩
    · exact ⟨rfl, h⟩
  | deepgramOpen => exact ⟨rfl, h⟩
  | deepgramError err =>
    have hf := (deepgramWsOnError_facts s err).2.2.2.2.2.1 hne
    simp only [step]
    rw [hf.1]
    exact ⟨hf.2, h⟩
  | deepgramClose code reason =>
    have hf := (deepgramWsOnClose_facts s code reason).2.2.2.2.2.1 hne
    simp only [step]
    rw [hf.1]
    exact ⟨hf.2, h⟩
  | deepgramMessage data =>
    have hq := deepgramWsOnMessage_quiet s data
    simp only [step]
    rw [hq.1]
    exact ⟨hq.2.1, h⟩
  | clientMessage data =>
    simp only [step, clientWsOnMessage]
    split_ifs <;> exact ⟨rfl, h⟩
  | clientClose =>
    simp only [step, clientWsOnClose]
    split_ifs <;> exact ⟨rfl, h⟩
  | clientError err => exact ⟨rfl, h⟩

/-- On a browser socket that is closing or closed no run issues a close. -/
theorem run_client_closing (s : Session) (events : List Event) (h : 2 ≤ s.clientWs.toNat) :
    clientCloses (run s events).2 = [] := by
  induction events generalizing s with
  | nil => rfl
  | cons e es ih =>
    have hs := step_client_closing s e h
    simp only [run]
    rw [clientCloses_append, hs.1, ih _ hs.2]
    rfl

/-- One event issues no close request on the browser socket, or issues one
and leaves the socket closing. -/
theorem step_client_close (s : Session) (e : Event) :
    clientCloses (step s e).2 = [] ∨
      ((clientCloses (step s e).2).length = 1 ∧ 2 ≤ (step s e).1.clientWs.toNat) := by
  cases e with
  | transport leg state => cases leg <;> exact Or.inl rfl
  | deepgramOpen => exact Or.inl rfl
  | deepgramError err =>
    have hf := deepgramWsOnError_facts s err
    simp only [step]
    by_cases hopen : s.clientWs = ReadyState.OPEN
    · have h1 := hf.2.2.2.2.2.2 hopen
      exact Or.inr ⟨by rw [h1.1]; rfl, by rw [h1.2]; simp [ReadyState.toNat]⟩
    · exact Or.inl (hf.2.2.2.2.2.1 hopen).2
  | deepgramClose code reason =>
    have hf := deepgramWsOnClose_facts s code reason
    simp only [step]
    by_cases hopen : s.clientWs = ReadyState.OPEN
    · have h1 := hf.2.2.2.2.2.2 hopen
      exact Or.inr ⟨by rw [h1.1]; rfl, h1.2⟩
    · exact Or.inl (hf.2.2.2.2.2.1 hopen).2
  | deepgramMessage data => exact Or.inl (deepgramWsOnMessage_quiet s data).2.1
  | clientMessage data =>
    simp only [step, clientWsOnMessage]
    split_ifs <;> exact Or.inl rfl
  | clientClose =>
    simp only [step, clientWsOnClose]
    split_ifs <;> exact Or.inl rfl
  | clientError err => exact Or.inl rfl

/-- One event on a Deepgram socket that is closing or closed: no close
request on it, and it is still closing or closed afterwards. -/
theorem step_deepgram_closing (s : Session) (e : Event) (h : 2 ≤ s.deepgramWs.toNat) :
    deepgramCloses (step s e).2 = 0 ∧ 2 ≤ (step s e).1.deepgramWs.toNat := by
  have hne : s.deepgramWs ≠ ReadyState.OPEN := by
    intro h1; rw [h1] at h; simp [ReadyState.toNat] at h
  cases e with
  | transport leg state =>
    cases leg
    · exact ⟨rfl, h⟩
    · exact ⟨rfl, advance_closing _ _ h⟩
  | deepgramOpen => exact ⟨rfl, h⟩
  | deepgramError err =>
    have hf := deepgramWsOnError_facts s err
    simp only [step]
    exact ⟨hf.2.1, by rw [hf.2.2.2.2.1]; exact h⟩
  | deepgramClose code reason =>
    have hf := deepgramWsOnClose_facts s code reason
    simp only [step]
    exact ⟨hf.2.1, hf.2.2.2.2.1 h⟩
  | deepgramMessage data =>
    have hq := deepgramWsOnMessage_quiet s data
    simp only [step]
    rw [hq.1]
    exact ⟨hq.2.2.2, h⟩
  | clientMessage data =>
    simp only [step, clientWsOnMessage]
    split_ifs <;> exact ⟨rfl, h⟩
  | clientClose =>
    simp only [step, clientWsOnClose, hne, if_false]
    exact ⟨rfl, h⟩
  | clientError err => exact ⟨rfl, h⟩

/-- On a Deepgram socket that is closing or closed no run issues a close. -/
theorem run_deepgram_closing (s : Session) (events : List Event)
    (h : 2 ≤ s.deepgramWs.toNat) : deepgramCloses (run s events).2 = 0 := by
  induction events generalizing s with
  | nil => rfl
  | cons e es ih =>
    have hs := step_deepgram_closing s e h
    simp only [run]
    rw [deepgramCloses_append, hs.1, ih _ hs.2]

/-- One event issues no close request on the Deepgram socket, or issues one
and leaves the socket closing. -/
theorem step_deepgram_close (s : Session) (e : Event) :
    deepgramCloses (step s e).2 = 0 ∨
      (deepgramCloses (step s e).2 = 1 ∧ 2 ≤ (step s e).1.deepgramWs.toNat) := by
  cases e with
  | transport leg state => cases leg <;> exact Or.inl rfl
  | deepgramOpen => exact Or.inl rfl
  | deepgramError err => exact Or.inl (deepgramWsOnError_facts s err).2.1
  | deepgramClose code reason => exact Or.inl (deepgramWsOnClose_facts s code reason).2.1
  | deepgramMessage data => exact Or.inl (deepgramWsOnMessage_quiet s data).2.2.2
  | clientMessage data =>
    simp only [step, clientWsOnMessage]
    split_ifs <;> exact Or.inl rfl
  | clientClose =>
    simp only [step, clientWsOnClose]
    split_ifs
    · exact Or.inr ⟨rfl, by simp [ReadyState.toNat]⟩
    · exact Or.inl rfl
  | clientError err => exact Or.inl rfl

/-- One event with both sockets closing or closed makes no socket call. -/
theorem step_exited (s : Session) (e : Event) (hc : 2 ≤ s.clientWs.toNat)
    (hd : 2 ≤ s.deepgramWs.toNat) : socketCalls (step s e).2 = [] := by
  have hnc : s.clientWs ≠ ReadyState.OPEN := by
    intro h1; rw [h1] at hc; simp [ReadyState.toNat] at hc
  have hnd : s.deepgramWs ≠ ReadyState.OPEN := by
    intro h1; rw [h1] at hd; simp [ReadyState.toNat] at hd
  cases e with
  | transport leg state => cases leg <;> rfl
  | deepgramOpen => rfl
  | deepgramError err =>
    simp only [step, deepgramWsOnError, hnc, if_false]
    rfl
  | deepgramClose code reason =>
    simp only [step, deepgramWsOnClose, hnc, if_false]
    exact (closeLogs_quiet code).2.2.2.2
  | deepgramMessage data =>
    simp only [step, deepgramWsOnMessage]
    split
    · rfl
    · split
      · rfl
      · rename_i logs hlogs
        simp only [hnc, if_false]
        exact (inspectMessage_quiet _ logs hlogs).2.2.2.2
  | clientMessage data =>
    simp only [step, clientWsOnMessage, hnd, if_false]
    split_ifs <;> rfl
  | clientClose =>
    simp only [step, clientWsOnClose, hnd, if_false]
    rfl
  | clientError err => rfl

/-- Once both sockets are closing or closed, as they are after an uncaught
exception, no event makes a call on a socket any more. -/
theorem run_exited (s : Session) (events : List Event) (hc : 2 ≤ s.clientWs.toNat)
    (hd : 2 ≤ s.deepgramWs.toNat) : socketCalls (run s events).2 = [] := by
  induction events generalizing s with
  | nil => rfl
  | cons e es ih =>
    simp only [run]
    rw [socketCalls_append, step_exited s e hc hd,
      ih _ (step_client_closing s e hc).2 (step_deepgram_closing s e hd).2]
    rfl

/-- C10: with a close request moving an open socket to `CLOSING` and a
socket never returning to an earlier ready-state, every run of events, from
every session, contains at most one `clientWs.close` call and at most one
`deepgramWs.close` call; and when a Deepgram error fires on an open browser
socket, the only close of the browser socket in the rest of the run,
whatever follows, a Deepgram close event with its own code included, is the
error handler's, with code 1011. -/
theorem at_most_one_close_per_leg (s : Session) (events : List Event) :
    (clientCloses (run s events).2).length ≤ 1 ∧
      deepgramCloses (run s events).2 ≤ 1 ∧
      (s.clientWs = ReadyState.OPEN → ∀ err,
        clientCloses (run s (Event.deepgramError err :: events)).2
          = [(1011, "Deepgram connection error")]) := by
  refine ⟨?_, ?_, ?_⟩
  · induction events generalizing s with
    | nil => simp [run, clientCloses]
    | cons e es ih =>
      simp only [run]
      rw [clientCloses_append, List.length_append]
      rcases step_client_close s e with h0 | ⟨h1, hcl⟩
      · rw [h0]; simpa using ih (step s e).1
      · rw [h1, run_client_closing _ es hcl]; simp
  · induction events generalizing s with
    | nil => simp [run, deepgramCloses]
    | cons e es ih =>
      simp only [run]
      rw [deepgramCloses_append]
      rcases step_deepgram_close s e with h0 | ⟨h1, hcl⟩
      · rw [h0]; simpa using ih (step s e).1
      · rw [h1, run_deepgram_closing _ es hcl]
  · intro hopen err
    have hstep : step s (Event.deepgramError err)
        = ({ s with clientWs := ReadyState.CLOSING },
            [Call.console Log.deepgramError,
              Call.clientClose 1011 "Deepgram connection error"]) := by
      simp only [step]
      exact deepgramWsOnError_open s err hopen
    simp only [run, hstep]
    rw [clientCloses_append, run_client_closing _ events (by simp [ReadyState.toNat])]
    rfl

/-- Witness of `at_most_one_close_per_leg`: on the fresh session a Deepgram
error is followed by the Deepgram close event with code 1006. -/
theorem at_most_one_close_per_leg_witness :
    Session.initial.clientWs = ReadyState.OPEN ∧
      clientCloses
          (run Session.initial
            [Event.deepgramError "ECONNRESET", Event.deepgramClose 1006 (some "")]).2
        = [(1011, "Deepgram connection error")] :=
  ⟨rfl,
    (at_most_one_close_per_leg Session.initial [Event.deepgramClose 1006 (some "")]).2.2
      rfl "ECONNRESET"⟩

end Relay
